import Mathlib

/-!
Verification of the signaling relay server of the repository
(`src/src-tauri/src/signaling.rs`).

The Rust code is shallowly embedded as pure Lean functions:

* `SignalMessage` mirrors the serde-tagged `enum SignalMessage`.
* A `Tx` (the `tokio::sync::mpsc::UnboundedSender<Message>` handle of a
  session's outbound queue) is modelled as an opaque natural-number handle;
  enqueuing a message on a `Tx` is recorded in an output list of
  `(Tx, SignalMessage)` pairs, in the order the code performs the sends.
* The process-wide `ROOMS: HashMap<String, Room>` registry is modelled as an
  association list with unique keys; `HashMap::insert` / `get` / `remove`
  become `insertKV` / `lookupRoom` / `removeHost`.
* `uuid::Uuid::new_v4()` (a fresh, non-empty, unique-with-overwhelming-
  probability identifier) is modelled as an injective supply `newUuid`
  driven by a counter threaded through the handler.
* The per-connection mutable locals `room_code`, `is_host`, `viewer_id`
  of `handle_connection` form the `SessionState` record; one iteration of
  the read loop on a decoded message is the function `handleSignal`, and
  the cleanup block at the end of `handle_connection` is `cleanup`.
* `start_signaling_server` / `stop_signaling_server` act on a `ServerCtl`
  state; `TcpListener::bind` is abstracted by a `bindOk : Nat → Bool`
  oracle and a successful bind is recorded in a `listeners` list.
-/

namespace Signaling

/-- Handle of a session's outbound queue
(`tokio::sync::mpsc::UnboundedSender<Message>`, alias `Tx` in the source).
Sessions are distinguished only by this handle. -/
abbrev Tx := Nat

/-- Opaque JSON payload (`serde_json::Value`); the relay never inspects it. -/
abbrev JsonValue := String

/-- The wire protocol: mirrors `enum SignalMessage` of `signaling.rs`
constructor by constructor, field by field (optional fields are `Option`). -/
inductive SignalMessage where
  | host (room : String)
  | viewer (room : String)
  | offer (viewerId : String) (sdp : String)
  | answer (viewerId : Option String) (sdp : String)
  | iceCandidate (viewerId : Option String) (candidate : JsonValue)
  | viewerJoined (viewerId : String)
  | viewerLeft (viewerId : String)
  | hostLeft
  | error (message : String)
deriving DecidableEq, Repr

/-- `struct Room { host_tx: Option<Tx>, viewers: HashMap<String, Tx> }`.
The viewer map is modelled as an association list `viewerId ↦ Tx`. -/
structure Room where
  host_tx : Option Tx
  viewers : List (String × Tx)
deriving DecidableEq, Repr

/-- The `ROOMS` registry: `HashMap<String, Room>` as an association list. -/
abbrev Rooms := List (String × Room)

/-- `HashMap::insert`: bind key `k` to `v`, replacing any previous binding. -/
def insertKV {β : Type} (l : List (String × β)) (k : String) (v : β) :
    List (String × β) :=
  (k, v) :: l.filter (fun p => p.1 ≠ k)

/-- `HashMap::get` on the registry (`rooms.get(&room)` / `get_mut`). -/
def lookupRoom (rooms : Rooms) (code : String) : Option Room :=
  (rooms.find? (fun p => p.1 = code)).map (fun p => p.2)

/-- In-place mutation of the room bound to `code` obtained through
`rooms.get_mut(&room)`: rewrite that binding with `g`, leave the rest. -/
def updateAt {β : Type} (l : List (String × β)) (code : String) (g : β → β) :
    List (String × β) :=
  l.map (fun p => if p.1 = code then (p.1, g p.2) else p)

/-- `rooms.insert(room, Room { host_tx: Some(tx), viewers: HashMap::new() })`
(lines 98–101): create — or silently overwrite — the room entry, binding the
given session as host with no viewers.  Spec §4.1 `createRoom`. -/
def createRoom (rooms : Rooms) (code : String) (hostTx : Tx) : Rooms :=
  insertKV rooms code ⟨some hostTx, []⟩

/-- `r.viewers.insert(vid, tx)` performed through `rooms.get_mut(&room)`
(line 109): insert a viewer into an existing room.  Spec §4.1 `addViewer`. -/
def addViewer (rooms : Rooms) (code vid : String) (vtx : Tx) : Rooms :=
  updateAt rooms code (fun r => ⟨r.host_tx, insertKV r.viewers vid vtx⟩)

/-- `rooms.remove(&room)` (line 190): delete the room entirely.
Spec §4.1 `removeHost`. -/
def removeHost (rooms : Rooms) (code : String) : Rooms :=
  rooms.filter (fun p => p.1 ≠ code)

/-- `r.viewers.remove(&vid)` through `rooms.get_mut(&room)` (line 193):
delete one viewer entry.  Spec §4.1 `removeViewer`. -/
def removeViewer (rooms : Rooms) (code vid : String) : Rooms :=
  updateAt rooms code (fun r => ⟨r.host_tx, r.viewers.filter (fun q => q.1 ≠ vid)⟩)

/-- `rooms.clear()` (line 252).  Spec §4.1 `clear`. -/
def clearRegistry : Rooms := []

/-- `uuid::Uuid::new_v4().to_string()` (line 108), modelled as an injective
supply of non-empty strings indexed by a counter threaded through the server:
v4 UUIDs are fresh non-empty strings, unique with overwhelming probability
(an accepted looseness per spec §3). -/
def newUuid (n : Nat) : String :=
  String.mk (List.replicate (n + 1) 'u')

/-- The per-connection mutable locals of `handle_connection` (lines 74–76):
`room_code: Option<String>`, `is_host: bool`, `viewer_id: Option<String>`. -/
structure SessionState where
  room_code : Option String
  is_host : Bool
  viewer_id : Option String
deriving DecidableEq, Repr

/-- The fresh session state at connection accept (lines 74–76). -/
def SessionState.init : SessionState := ⟨none, false, none⟩

/-- The spec's view of a session's role (§3): derived from the three locals. -/
inductive Role where
  | unassigned
  | hostOf (room : String)
  | viewerOf (room : String) (viewerId : String)
deriving DecidableEq, Repr

/-- Read the spec-level role off the implementation's three locals. -/
def SessionState.role (st : SessionState) : Role :=
  match st.room_code, st.is_host, st.viewer_id with
  | some r, true, _ => .hostOf r
  | some r, false, some v => .viewerOf r v
  | _, _, _ => .unassigned

/-- Result of one read-loop iteration: the updated locals, the updated
registry, the updated uuid counter, and the sends performed
(destination `Tx`, message), in program order. -/
structure StepResult where
  st : SessionState
  rooms : Rooms
  counter : Nat
  sends : List (Tx × SignalMessage)
deriving DecidableEq, Repr

/-- One iteration of the read loop of `handle_connection` on a decoded
message (the `match signal` at lines 95–170).  `tx` is this session's own
outbound handle.  Every branch mirrors the corresponding Rust arm:

* `Host { room }` (96–104): unconditionally (re)create the room with this
  session as host, set `room_code` and `is_host` (no role precondition).
* `Viewer { room }` (105–122): if the room exists, generate a fresh id,
  insert the viewer, set `viewer_id` and `room_code`, and notify the host
  if one is present; otherwise send `Error "Room not found"` to self.
* `Offer` (123–133): if `room_code` is set and the room and target viewer
  exist, forward the offer verbatim to the viewer.
* `Answer` (134–146): the client-supplied `viewer_id` is ignored; if
  `room_code` and own `viewer_id` are set and the room's host is present,
  forward tagged with the session's own id.
* `IceCandidate` (147–168): from a host, require a target id and forward to
  that viewer; from a non-host, forward to the host tagged with own id.
* all server-generated messages fall to the `_ => {}` arm (169). -/
def handleSignal (tx : Tx) (st : SessionState) (rooms : Rooms) (counter : Nat) :
    SignalMessage → StepResult
  | .host room =>
      { st := ⟨some room, true, st.viewer_id⟩
        rooms := createRoom rooms room tx
        counter := counter
        sends := [] }
  | .viewer room =>
      match lookupRoom rooms room with
      | some r =>
          let vid := newUuid counter
          { st := ⟨some room, st.is_host, some vid⟩
            rooms := addViewer rooms room vid tx
            counter := counter + 1
            sends :=
              match r.host_tx with
              | some host_tx => [(host_tx, .viewerJoined vid)]
              | none => [] }
      | none =>
          { st := st, rooms := rooms, counter := counter
            sends := [(tx, .error "Room not found")] }
  | .offer vid sdp =>
      { st := st, rooms := rooms, counter := counter
        sends :=
          match st.room_code with
          | some room =>
              match lookupRoom rooms room with
              | some r =>
                  match r.viewers.find? (fun q => q.1 = vid) with
                  | some q => [(q.2, .offer vid sdp)]
                  | none => []
              | none => []
          | none => [] }
  | .answer _ sdp =>
      { st := st, rooms := rooms, counter := counter
        sends :=
          match st.room_code, st.viewer_id with
          | some room, some vid =>
              match lookupRoom rooms room with
              | some r =>
                  match r.host_tx with
                  | some host_tx => [(host_tx, .answer (some vid) sdp)]
                  | none => []
              | none => []
          | _, _ => [] }
  | .iceCandidate target_vid candidate =>
      { st := st, rooms := rooms, counter := counter
        sends :=
          match st.room_code with
          | some room =>
              match lookupRoom rooms room with
              | some r =>
                  if st.is_host then
                    match target_vid with
                    | some vid =>
                        match r.viewers.find? (fun q => q.1 = vid) with
                        | some q => [(q.2, .iceCandidate (some vid) candidate)]
                        | none => []
                    | none => []
                  else
                    match r.host_tx with
                    | some host_tx =>
                        [(host_tx, .iceCandidate st.viewer_id candidate)]
                    | none => []
              | none => []
          | none => [] }
  | .viewerJoined _ => { st := st, rooms := rooms, counter := counter, sends := [] }
  | .viewerLeft _ => { st := st, rooms := rooms, counter := counter, sends := [] }
  | .hostLeft => { st := st, rooms := rooms, counter := counter, sends := [] }
  | .error _ => { st := st, rooms := rooms, counter := counter, sends := [] }

/-- The cleanup block at the end of `handle_connection` (lines 180–200),
run once when the read loop terminates: a host enqueues `HostLeft` to every
viewer of the room registered under its code and removes that room; a viewer
removes its own entry and, if the host is present, enqueues `ViewerLeft`. -/
def cleanup (st : SessionState) (rooms : Rooms) :
    Rooms × List (Tx × SignalMessage) :=
  match st.room_code with
  | none => (rooms, [])
  | some room =>
      if st.is_host then
        let sends :=
          match lookupRoom rooms room with
          | some r => r.viewers.map (fun q => (q.2, SignalMessage.hostLeft))
          | none => []
        (removeHost rooms room, sends)
      else
        match st.viewer_id with
        | none => (rooms, [])
        | some vid =>
            match lookupRoom rooms room with
            | none => (rooms, [])
            | some r =>
                (removeViewer rooms room vid,
                 match r.host_tx with
                 | some host_tx => [(host_tx, SignalMessage.viewerLeft vid)]
                 | none => [])

/-- Lifecycle state of the server control surface: the `SIGNALING_RUNNING`
flag and the list of TCP listeners created so far (in creation order). -/
structure ServerCtl where
  running : Bool
  listeners : List Nat
deriving DecidableEq, Repr

/-- `start_signaling_server(port)` (lines 206–240).  If the running flag is
set it returns `Ok(port)` immediately (line 208) — the argument, with no new
listener.  Otherwise `TcpListener::bind` (abstracted by the `bindOk` oracle)
either fails, surfacing the error, or succeeds, recording a new listener,
setting the flag, and returning `Ok(port)`. -/
def start_signaling_server (bindOk : Nat → Bool) (port : Nat) (s : ServerCtl) :
    Except String Nat × ServerCtl :=
  if s.running then
    (Except.ok port, s)
  else if bindOk port then
    (Except.ok port, ⟨true, s.listeners ++ [port]⟩)
  else
    (Except.error "bind failed", s)

/-- Number of hosts bound in a room: the `host_tx: Option<Tx>` slot holds
zero or one sessions. -/
def Room.hostCount (r : Room) : Nat :=
  match r.host_tx with
  | some _ => 1
  | none => 0

/-- Well-formedness of one room: its viewer map is a genuine mapping, i.e.
the server-assigned viewer ids (the keys) are pairwise distinct. -/
def RoomWF (r : Room) : Prop :=
  (r.viewers.map Prod.fst).Nodup

/-- The registry invariant of spec §8: the registry itself is a mapping
(room codes pairwise distinct) and every room has at most one host and
well-formed viewers. -/
def RegistryInv (rooms : Rooms) : Prop :=
  (rooms.map Prod.fst).Nodup ∧
    ∀ p ∈ rooms, p.2.hostCount ≤ 1 ∧ RoomWF p.2

/-- Registry states reachable through the registry operations: the code
mutates `ROOMS` only via `createRoom` (line 98), `addViewer` (line 109),
`removeHost` (line 190), `removeViewer` (line 193) and `clear` (line 252),
starting from the empty map. -/
inductive ReachableRegistry : Rooms → Prop where
  | empty : ReachableRegistry []
  | create (rooms : Rooms) (code : String) (tx : Tx) :
      ReachableRegistry rooms → ReachableRegistry (createRoom rooms code tx)
  | addV (rooms : Rooms) (code vid : String) (vtx : Tx) :
      ReachableRegistry rooms → ReachableRegistry (addViewer rooms code vid vtx)
  | removeH (rooms : Rooms) (code : String) :
      ReachableRegistry rooms → ReachableRegistry (removeHost rooms code)
  | removeV (rooms : Rooms) (code vid : String) :
      ReachableRegistry rooms → ReachableRegistry (removeViewer rooms code vid)
  | clear (rooms : Rooms) :
      ReachableRegistry rooms → ReachableRegistry clearRegistry

/-! ### Association-list lemmas -/

theorem find?_filter_key_self {β : Type} (l : List (String × β)) (k : String) :
    (l.filter (fun p => p.1 ≠ k)).find? (fun p => p.1 = k) = none := by
  induction l with
  | nil => rfl
  | cons a l ih =>
      by_cases h : a.1 = k
      · simp [List.filter_cons, h, ih]
      · simp [List.filter_cons, h, List.find?_cons, ih]

theorem find?_filter_key_ne {β : Type} (l : List (String × β)) (k k' : String)
    (h : k' ≠ k) :
    (l.filter (fun p => p.1 ≠ k)).find? (fun p => p.1 = k')
      = l.find? (fun p => p.1 = k') := by
  rw [List.find?_filter]
  congr 1
  funext a
  by_cases h1 : a.1 = k' <;> by_cases h2 : a.1 = k <;> simp_all

theorem find?_insertKV_self {β : Type} (l : List (String × β)) (k : String) (v : β) :
    (insertKV l k v).find? (fun p => p.1 = k) = some (k, v) := by
  simp [insertKV, List.find?_cons]

theorem find?_insertKV_ne {β : Type} (l : List (String × β)) (k k' : String) (v : β)
    (h : k' ≠ k) :
    (insertKV l k v).find? (fun p => p.1 = k') = l.find? (fun p => p.1 = k') := by
  have hne : ¬ ((k, v).1 = k') := fun hc => h hc.symm
  rw [insertKV, List.find?_cons_of_neg _ (by simpa using hne)]
  exact find?_filter_key_ne l k k' h

theorem keys_filter_sublist {β : Type} (l : List (String × β)) (k : String) :
    ((l.filter (fun p => p.1 ≠ k)).map Prod.fst).Sublist (l.map Prod.fst) :=
  (List.filter_sublist l).map Prod.fst

theorem nodup_keys_insertKV {β : Type} (l : List (String × β)) (k : String) (v : β)
    (h : (l.map Prod.fst).Nodup) :
    ((insertKV l k v).map Prod.fst).Nodup := by
  rw [insertKV, List.map_cons]
  refine List.Nodup.cons ?_ ((keys_filter_sublist l k).nodup h)
  intro hmem
  rcases List.mem_map.mp hmem with ⟨p, hp, hfst⟩
  have := List.of_mem_filter hp
  simp at this
  exact this hfst

theorem updateAt_cons {β : Type} (a : String × β) (l : List (String × β))
    (code : String) (g : β → β) :
    updateAt (a :: l) code g
      = (if a.1 = code then (a.1, g a.2) else a) :: updateAt l code g := by
  simp only [updateAt, List.map_cons]

theorem find?_updateAt {β : Type} (l : List (String × β)) (code : String)
    (g : β → β) (k : String) :
    (updateAt l code g).find? (fun p => p.1 = k)
      = if k = code then (l.find? (fun p => p.1 = k)).map (fun p => (p.1, g p.2))
        else l.find? (fun p => p.1 = k) := by
  induction l with
  | nil => by_cases h : k = code <;> simp [updateAt, h]
  | cons a l ih =>
      rw [updateAt_cons]
      by_cases hk : k = code
      · subst hk
        by_cases ha : a.1 = k
        · rw [if_pos ha, if_pos rfl]
          rw [List.find?_cons_of_pos _ (by simpa using ha),
            List.find?_cons_of_pos _ (by simpa using ha)]
          simp
        · rw [if_neg ha, if_pos rfl]
          rw [List.find?_cons_of_neg _ (by simpa using ha),
            List.find?_cons_of_neg _ (by simpa using ha)]
          rw [ih, if_pos rfl]
      · rw [if_neg hk]
        have hck : ¬ (code = k) := fun hc => hk hc.symm
        by_cases ha : a.1 = code
        · have hak : ¬ (a.1 = k) := by rw [ha]; exact hck
          rw [if_pos ha]
          rw [List.find?_cons_of_neg _ (by simpa using hak),
            List.find?_cons_of_neg _ (by simpa using hak)]
          rw [ih, if_neg hk]
        · rw [if_neg ha]
          by_cases hak : a.1 = k
          · rw [List.find?_cons_of_pos _ (by simpa using hak),
              List.find?_cons_of_pos _ (by simpa using hak)]
          · rw [List.find?_cons_of_neg _ (by simpa using hak),
              List.find?_cons_of_neg _ (by simpa using hak)]
            rw [ih, if_neg hk]

theorem keys_updateAt {β : Type} (l : List (String × β)) (code : String)
    (g : β → β) :
    (updateAt l code g).map Prod.fst = l.map Prod.fst := by
  rw [updateAt, List.map_map]
  apply List.map_congr_left
  intro a _
  by_cases h : a.1 = code <;> simp [h]

/-! ### Registry lookup lemmas -/

theorem lookupRoom_createRoom_self (rooms : Rooms) (code : String) (tx : Tx) :
    lookupRoom (createRoom rooms code tx) code = some ⟨some tx, []⟩ := by
  rw [lookupRoom, createRoom, find?_insertKV_self]
  rfl

theorem lookupRoom_createRoom_ne (rooms : Rooms) (code k : String) (tx : Tx)
    (h : k ≠ code) :
    lookupRoom (createRoom rooms code tx) k = lookupRoom rooms k := by
  rw [lookupRoom, createRoom, find?_insertKV_ne _ _ _ _ h, lookupRoom]

theorem lookupRoom_removeHost_self (rooms : Rooms) (code : String) :
    lookupRoom (removeHost rooms code) code = none := by
  rw [lookupRoom, removeHost, find?_filter_key_self]
  rfl

theorem lookupRoom_removeHost_ne (rooms : Rooms) (code k : String)
    (h : k ≠ code) :
    lookupRoom (removeHost rooms code) k = lookupRoom rooms k := by
  rw [lookupRoom, removeHost, find?_filter_key_ne _ _ _ h, lookupRoom]

theorem lookupRoom_updateAt (rooms : Rooms) (code : String) (g : Room → Room)
    (k : String) :
    lookupRoom (updateAt rooms code g) k
      = if k = code then (lookupRoom rooms k).map g else lookupRoom rooms k := by
  rw [lookupRoom, find?_updateAt]
  by_cases h : k = code
  · rw [if_pos h, if_pos h, lookupRoom]
    cases rooms.find? (fun p => p.1 = k) <;> simp
  · rw [if_neg h, if_neg h, lookupRoom]

/-! ### Fresh-id and role lemmas -/

theorem newUuid_inj {n m : Nat} (h : newUuid n = newUuid m) : n = m := by
  have hdata : List.replicate (n + 1) 'u' = List.replicate (m + 1) 'u' :=
    congrArg String.data h
  have hlen := congrArg List.length hdata
  simpa using hlen

theorem newUuid_ne_empty (n : Nat) : newUuid n ≠ "" := by
  intro h
  have hdata : List.replicate (n + 1) 'u' = ([] : List Char) :=
    congrArg String.data h
  have hlen := congrArg List.length hdata
  simp at hlen

theorem role_eq_hostOf {st : SessionState} {R : String}
    (h : st.role = .hostOf R) : st.room_code = some R ∧ st.is_host = true := by
  rcases st with ⟨rc, ih, vid⟩
  cases rc <;> cases ih <;> cases vid <;> simp_all [SessionState.role]

theorem role_eq_viewerOf {st : SessionState} {R v : String}
    (h : st.role = .viewerOf R v) :
    st.room_code = some R ∧ st.is_host = false ∧ st.viewer_id = some v := by
  rcases st with ⟨rc, ih, vid⟩
  cases rc <;> cases ih <;> cases vid <;> simp_all [SessionState.role]

theorem mem_insertKV {β : Type} {l : List (String × β)} {k : String} {v : β}
    {p : String × β} (h : p ∈ insertKV l k v) : p = (k, v) ∨ p ∈ l := by
  rw [insertKV] at h
  rcases List.mem_cons.mp h with h | h
  · exact Or.inl h
  · exact Or.inr (List.mem_of_mem_filter h)

theorem mem_updateAt {β : Type} {l : List (String × β)} {code : String}
    {g : β → β} {p : String × β} (h : p ∈ updateAt l code g) :
    ∃ p0 ∈ l, p = p0 ∨ p = (p0.1, g p0.2) := by
  rw [updateAt] at h
  rcases List.mem_map.mp h with ⟨p0, hp0, heq⟩
  refine ⟨p0, hp0, ?_⟩
  by_cases hc : p0.1 = code
  · right
    rw [← heq, if_pos hc]
  · left
    rw [← heq, if_neg hc]

theorem hostCount_le_one (r : Room) : r.hostCount ≤ 1 := by
  rcases r with ⟨h, vs⟩
  cases h <;> simp [Room.hostCount]

theorem registryInv_empty : RegistryInv [] :=
  ⟨List.nodup_nil, by intro p hp; cases hp⟩

theorem registryInv_createRoom (rooms : Rooms) (code : String) (tx : Tx)
    (h : RegistryInv rooms) : RegistryInv (createRoom rooms code tx) := by
  obtain ⟨hkeys, hvals⟩ := h
  refine ⟨nodup_keys_insertKV _ _ _ hkeys, ?_⟩
  intro p hp
  rcases mem_insertKV hp with rfl | hp
  · exact ⟨hostCount_le_one _, List.nodup_nil⟩
  · exact hvals p hp

theorem registryInv_updateAt (rooms : Rooms) (code : String) (g : Room → Room)
    (hg : ∀ r, r.hostCount ≤ 1 ∧ RoomWF r → (g r).hostCount ≤ 1 ∧ RoomWF (g r))
    (h : RegistryInv rooms) : RegistryInv (updateAt rooms code g) := by
  obtain ⟨hkeys, hvals⟩ := h
  refine ⟨by rw [keys_updateAt]; exact hkeys, ?_⟩
  intro p hp
  rcases mem_updateAt hp with ⟨p0, hp0, heq | heq⟩
  · rw [heq]
    exact hvals p0 hp0
  · rw [heq]
    exact hg p0.2 (hvals p0 hp0)

theorem registryInv_addViewer (rooms : Rooms) (code vid : String) (vtx : Tx)
    (h : RegistryInv rooms) : RegistryInv (addViewer rooms code vid vtx) := by
  refine registryInv_updateAt rooms code _ ?_ h
  intro r ⟨hc, hwf⟩
  constructor
  · rcases r with ⟨htx, vs⟩
    cases htx <;> simp [Room.hostCount]
  · exact nodup_keys_insertKV _ _ _ hwf

theorem registryInv_removeHost (rooms : Rooms) (code : String)
    (h : RegistryInv rooms) : RegistryInv (removeHost rooms code) := by
  obtain ⟨hkeys, hvals⟩ := h
  refine ⟨(keys_filter_sublist rooms code).nodup hkeys, ?_⟩
  intro p hp
  exact hvals p (List.mem_of_mem_filter hp)

theorem registryInv_removeViewer (rooms : Rooms) (code vid : String)
    (h : RegistryInv rooms) : RegistryInv (removeViewer rooms code vid) := by
  refine registryInv_updateAt rooms code _ ?_ h
  intro r ⟨hc, hwf⟩
  constructor
  · rcases r with ⟨htx, vs⟩
    cases htx <;> simp [Room.hostCount]
  · exact (keys_filter_sublist r.viewers vid).nodup hwf

/-! ### Claim theorems -/

/-- C2: every reachable registry state satisfies the invariant — every room
has at most one host and its viewer ids are pairwise distinct (and room
codes themselves are pairwise distinct) — and the invariant is preserved by
each registry operation: createRoom, addViewer, removeHost, removeViewer
and clear. -/
theorem registry_invariant_holds_and_preserved :
    (∀ rooms, ReachableRegistry rooms → RegistryInv rooms) ∧
    (∀ rooms code tx, RegistryInv rooms →
        RegistryInv (createRoom rooms code tx)) ∧
    (∀ rooms code vid vtx, RegistryInv rooms →
        RegistryInv (addViewer rooms code vid vtx)) ∧
    (∀ rooms code, RegistryInv rooms → RegistryInv (removeHost rooms code)) ∧
    (∀ rooms code vid, RegistryInv rooms →
        RegistryInv (removeViewer rooms code vid)) ∧
    RegistryInv clearRegistry := by
  refine ⟨?_, registryInv_createRoom, registryInv_addViewer,
    registryInv_removeHost, registryInv_removeViewer, registryInv_empty⟩
  intro rooms hreach
  induction hreach with
  | empty => exact registryInv_empty
  | create rooms code tx _ ih => exact registryInv_createRoom rooms code tx ih
  | addV rooms code vid vtx _ ih => exact registryInv_addViewer rooms code vid vtx ih
  | removeH rooms code _ ih => exact registryInv_removeHost rooms code ih
  | removeV rooms code vid _ ih => exact registryInv_removeViewer rooms code vid ih
  | clear rooms _ _ => exact registryInv_empty

theorem registry_invariant_holds_and_preserved_witness :
    RegistryInv (addViewer (createRoom [] "A" 0) "A" (newUuid 0) 1) :=
  registry_invariant_holds_and_preserved.1 _
    (ReachableRegistry.addV _ "A" (newUuid 0) 1
      (ReachableRegistry.create [] "A" 0 ReachableRegistry.empty))

theorem host_present_of_reachable (rooms : Rooms) (h : ReachableRegistry rooms) :
    ∀ p ∈ rooms, ∃ htx, p.2.host_tx = some htx := by
  induction h with
  | empty =>
      intro p hp
      cases hp
  | create rooms code tx _ ih =>
      intro p hp
      rcases mem_insertKV hp with heq | hp
      · rw [heq]
        exact ⟨tx, rfl⟩
      · exact ih p hp
  | addV rooms code vid vtx _ ih =>
      intro p hp
      rcases mem_updateAt hp with ⟨p0, hp0, heq | heq⟩
      · rw [heq]
        exact ih p0 hp0
      · rw [heq]
        rcases ih p0 hp0 with ⟨htx, hh⟩
        exact ⟨htx, hh⟩
  | removeH rooms code _ ih =>
      intro p hp
      exact ih p (List.mem_of_mem_filter hp)
  | removeV rooms code vid _ ih =>
      intro p hp
      rcases mem_updateAt hp with ⟨p0, hp0, heq | heq⟩
      · rw [heq]
        exact ih p0 hp0
      · rw [heq]
        rcases ih p0 hp0 with ⟨htx, hh⟩
        exact ⟨htx, hh⟩
  | clear rooms _ _ =>
      intro p hp
      cases hp

/-- C3: handling `Viewer{room}` sends exactly one `Error` to the requester
and leaves the registry unchanged if and only if the room is absent.  When
the room exists (with its host present, as in every reachable registry),
the requester gets no error, a fresh non-empty server-generated id is
inserted into the room, the session's role becomes `Viewer(room, id)`, and
exactly one `ViewerJoined` with that id is enqueued to the host; a second
join yields a second, different id and a second `ViewerJoined`.  The last
conjunct discharges the host-present proviso: every room of a reachable
registry has its host slot filled. -/
theorem viewer_join_error_iff_absent_and_fresh_ids :
    (∀ rooms, ReachableRegistry rooms →
        ∀ p ∈ (rooms : Rooms), ∃ htx, p.2.host_tx = some htx) ∧
    (∀ tx (st : SessionState) rooms c room,
        ((handleSignal tx st rooms c (.viewer room)).sends
              = [(tx, .error "Room not found")] ∧
          (handleSignal tx st rooms c (.viewer room)).rooms = rooms)
          ↔ lookupRoom rooms room = none) ∧
    (∀ tx (st : SessionState) rooms c room r htx, st.is_host = false →
        lookupRoom rooms room = some r → r.host_tx = some htx →
        (∀ m, (tx, SignalMessage.error m)
            ∉ (handleSignal tx st rooms c (.viewer room)).sends) ∧
        (handleSignal tx st rooms c (.viewer room)).sends
          = [(htx, .viewerJoined (newUuid c))] ∧
        newUuid c ≠ "" ∧
        (handleSignal tx st rooms c (.viewer room)).st.role
          = .viewerOf room (newUuid c) ∧
        lookupRoom (handleSignal tx st rooms c (.viewer room)).rooms room
          = some ⟨r.host_tx, insertKV r.viewers (newUuid c) tx⟩) ∧
    (∀ tx tx2 (st st2 : SessionState) rooms c room r htx,
        lookupRoom rooms room = some r → r.host_tx = some htx →
        (handleSignal tx2 st2 (handleSignal tx st rooms c (.viewer room)).rooms
            (handleSignal tx st rooms c (.viewer room)).counter
            (.viewer room)).sends
          = [(htx, .viewerJoined (newUuid (c + 1)))] ∧
        newUuid (c + 1) ≠ newUuid c) := by
  refine ⟨host_present_of_reachable, ?_, ?_, ?_⟩
  · intro tx st rooms c room
    constructor
    · rintro ⟨hs, -⟩
      cases hl : lookupRoom rooms room with
      | none => rfl
      | some r =>
          cases hh : r.host_tx with
          | some htx => simp [handleSignal, hl, hh] at hs
          | none => simp [handleSignal, hl, hh] at hs
    · intro hl
      simp [handleSignal, hl]
  · intro tx st rooms c room r htx hih hr hh
    have hstep : handleSignal tx st rooms c (.viewer room)
        = ⟨⟨some room, st.is_host, some (newUuid c)⟩,
           addViewer rooms room (newUuid c) tx, c + 1,
           [(htx, .viewerJoined (newUuid c))]⟩ := by
      simp [handleSignal, hr, hh]
    refine ⟨?_, ?_, newUuid_ne_empty c, ?_, ?_⟩
    · intro m hm
      rw [hstep] at hm
      simp at hm
    · rw [hstep]
    · rw [hstep]
      simp [SessionState.role, hih]
    · rw [hstep]
      simp [addViewer, lookupRoom_updateAt, hr]
  · intro tx tx2 st st2 rooms c room r htx hr hh
    have hrooms : (handleSignal tx st rooms c (.viewer room)).rooms
        = addViewer rooms room (newUuid c) tx := by
      simp [handleSignal, hr]
    have hcnt : (handleSignal tx st rooms c (.viewer room)).counter = c + 1 := by
      simp [handleSignal, hr]
    have hr2 : lookupRoom (addViewer rooms room (newUuid c) tx) room
        = some ⟨r.host_tx, insertKV r.viewers (newUuid c) tx⟩ := by
      simp [addViewer, lookupRoom_updateAt, hr]
    constructor
    · rw [hrooms, hcnt]
      simp [handleSignal, hr2, hh]
    · exact fun hbad => Nat.succ_ne_self c (newUuid_inj hbad)

theorem viewer_join_error_iff_absent_and_fresh_ids_witness :
    (SessionState.init.is_host = false) ∧
    lookupRoom [("A", ⟨some 0, []⟩)] "A" = some ⟨some 0, []⟩ ∧
    (handleSignal 1 SessionState.init [("A", ⟨some 0, []⟩)] 0 (.viewer "A")).sends
      = [(0, .viewerJoined (newUuid 0))] :=
  ⟨rfl, by decide,
    (viewer_join_error_iff_absent_and_fresh_ids.2.2.1 1 SessionState.init
      [("A", ⟨some 0, []⟩)] 0 "A" ⟨some 0, []⟩ 0 rfl (by decide)
      (by decide)).2.1⟩

/-- C7: when a session with role `Host(R)` terminates while room `R` is
registered with viewer map `r.viewers`, cleanup enqueues exactly one
`HostLeft` per registered viewer entry (and nothing else), removes room `R`
from the registry, and a subsequent `Viewer{R}` join from a fresh
connection yields an `Error` and no registry change. -/
theorem host_disconnect_notifies_viewers_and_removes_room
    (st : SessionState) (rooms : Rooms) (R : String) (r : Room)
    (h : st.role = .hostOf R) (hr : lookupRoom rooms R = some r) :
    (cleanup st rooms).2 = r.viewers.map (fun q => (q.2, SignalMessage.hostLeft)) ∧
    (∀ q ∈ r.viewers, (q.2, SignalMessage.hostLeft) ∈ (cleanup st rooms).2) ∧
    (cleanup st rooms).2.length = r.viewers.length ∧
    (cleanup st rooms).1 = removeHost rooms R ∧
    lookupRoom (cleanup st rooms).1 R = none ∧
    (∀ tx2 c2, (handleSignal tx2 SessionState.init (cleanup st rooms).1 c2
          (.viewer R)).sends = [(tx2, .error "Room not found")] ∧
        (handleSignal tx2 SessionState.init (cleanup st rooms).1 c2
          (.viewer R)).rooms = (cleanup st rooms).1) := by
  obtain ⟨hrc, hih⟩ := role_eq_hostOf h
  have hc : cleanup st rooms
      = (removeHost rooms R,
         r.viewers.map (fun q => (q.2, SignalMessage.hostLeft))) := by
    simp [cleanup, hrc, hih, hr]
  refine ⟨?_, ?_, ?_, ?_, ?_, ?_⟩
  · rw [hc]
  · intro q hq
    rw [hc]
    exact List.mem_map_of_mem _ hq
  · rw [hc]
    simp
  · rw [hc]
  · rw [hc]
    exact lookupRoom_removeHost_self rooms R
  · intro tx2 c2
    rw [hc]
    simp [handleSignal, lookupRoom_removeHost_self]

theorem host_disconnect_notifies_viewers_and_removes_room_witness :
    (⟨some "A", true, none⟩ : SessionState).role = .hostOf "A" ∧
    lookupRoom [("A", ⟨some 0, [("u", 1), ("w", 2)]⟩)] "A"
      = some ⟨some 0, [("u", 1), ("w", 2)]⟩ ∧
    (cleanup ⟨some "A", true, none⟩ [("A", ⟨some 0, [("u", 1), ("w", 2)]⟩)]).2
      = [(1, .hostLeft), (2, .hostLeft)] :=
  ⟨by decide, by decide,
    (host_disconnect_notifies_viewers_and_removes_room ⟨some "A", true, none⟩
      [("A", ⟨some 0, [("u", 1), ("w", 2)]⟩)] "A" ⟨some 0, [("u", 1), ("w", 2)]⟩
      (by decide) (by decide)).1⟩

/-- C8: when a session with role `Viewer(R, vid)` terminates while room `R`
is registered and its host is present, cleanup enqueues exactly one
`ViewerLeft{vid}` to the host; room `R` keeps its entry and host binding,
`vid`'s entry is gone, every other viewer's entry is unchanged, other rooms
are unchanged, and the room still accepts a new viewer afterwards. -/
theorem viewer_disconnect_removes_only_that_viewer
    (st : SessionState) (rooms : Rooms) (R vid : String) (r : Room) (htx : Tx)
    (h : st.role = .viewerOf R vid) (hr : lookupRoom rooms R = some r)
    (hh : r.host_tx = some htx) :
    (cleanup st rooms).2 = [(htx, .viewerLeft vid)] ∧
    (cleanup st rooms).1 = removeViewer rooms R vid ∧
    lookupRoom (cleanup st rooms).1 R
      = some ⟨r.host_tx, r.viewers.filter (fun q => q.1 ≠ vid)⟩ ∧
    (r.viewers.filter (fun q => q.1 ≠ vid)).find? (fun q => q.1 = vid) = none ∧
    (∀ v, v ≠ vid →
        (r.viewers.filter (fun q => q.1 ≠ vid)).find? (fun q => q.1 = v)
          = r.viewers.find? (fun q => q.1 = v)) ∧
    (∀ c', c' ≠ R → lookupRoom (cleanup st rooms).1 c' = lookupRoom rooms c') ∧
    (∀ tx2 c2, (handleSignal tx2 SessionState.init (cleanup st rooms).1 c2
        (.viewer R)).sends = [(htx, .viewerJoined (newUuid c2))]) := by
  obtain ⟨hrc, hih, hvid⟩ := role_eq_viewerOf h
  have hc : cleanup st rooms
      = (removeViewer rooms R vid, [(htx, .viewerLeft vid)]) := by
    simp [cleanup, hrc, hih, hvid, hr, hh]
  have hlook : lookupRoom (removeViewer rooms R vid) R
      = some ⟨r.host_tx, r.viewers.filter (fun q => q.1 ≠ vid)⟩ := by
    simp [removeViewer, lookupRoom_updateAt, hr]
  refine ⟨?_, ?_, ?_, ?_, ?_, ?_, ?_⟩
  · rw [hc]
  · rw [hc]
  · rw [hc]
    exact hlook
  · exact find?_filter_key_self r.viewers vid
  · intro v hv
    exact find?_filter_key_ne r.viewers vid v hv
  · intro c' hc'
    rw [hc]
    simp [removeViewer, lookupRoom_updateAt, hc']
  · intro tx2 c2
    rw [hc]
    simp [handleSignal, hlook, hh]

theorem viewer_disconnect_removes_only_that_viewer_witness :
    (⟨some "A", false, some "u"⟩ : SessionState).role = .viewerOf "A" "u" ∧
    lookupRoom [("A", ⟨some 0, [("u", 1), ("w", 2)]⟩)] "A"
      = some ⟨some 0, [("u", 1), ("w", 2)]⟩ ∧
    (cleanup ⟨some "A", false, some "u"⟩
        [("A", ⟨some 0, [("u", 1), ("w", 2)]⟩)]).2 = [(0, .viewerLeft "u")] :=
  ⟨by decide, by decide,
    (viewer_disconnect_removes_only_that_viewer ⟨some "A", false, some "u"⟩
      [("A", ⟨some 0, [("u", 1), ("w", 2)]⟩)] "A" "u"
      ⟨some 0, [("u", 1), ("w", 2)]⟩ 0 (by decide) (by decide) rfl).1⟩

/-- C10: host teardown is keyed only by the room code, not by session
identity.  If, after the original host's `Host{R}`, another session re-sent
`Host{R}` (overwriting the entry) and a viewer joined the new room, then
the *original* host's disconnect still enqueues `HostLeft` to the viewers
of the room currently registered under `R` and deletes that entry, evicting
the newer host's room from the registry. -/
theorem host_teardown_keyed_by_room_code
    (stA : SessionState) (rooms0 : Rooms) (R : String) (c : Nat)
    (txB txV : Tx) (res1 res2 : StepResult)
    (hA : stA.role = .hostOf R)
    (h1 : handleSignal txB SessionState.init rooms0 c (.host R) = res1)
    (h2 : handleSignal txV SessionState.init res1.rooms res1.counter
        (.viewer R) = res2) :
    (cleanup stA res2.rooms).2 = [(txV, .hostLeft)] ∧
    lookupRoom (cleanup stA res2.rooms).1 R = none ∧
    (cleanup stA res2.rooms).1 = removeHost res2.rooms R := by
  obtain ⟨hrc, hih⟩ := role_eq_hostOf hA
  subst h1 h2
  have hrooms1 : (handleSignal txB SessionState.init rooms0 c (.host R)).rooms
      = createRoom rooms0 R txB := rfl
  have hcnt1 : (handleSignal txB SessionState.init rooms0 c (.host R)).counter
      = c := rfl
  have hlook1 : lookupRoom (createRoom rooms0 R txB) R = some ⟨some txB, []⟩ :=
    lookupRoom_createRoom_self rooms0 R txB
  have h2rooms :
      (handleSignal txV SessionState.init (createRoom rooms0 R txB) c
        (.viewer R)).rooms
      = addViewer (createRoom rooms0 R txB) R (newUuid c) txV := by
    simp [handleSignal, hlook1]
  have hlook2 :
      lookupRoom (addViewer (createRoom rooms0 R txB) R (newUuid c) txV) R
        = some ⟨some txB, [(newUuid c, txV)]⟩ := by
    simp [addViewer, lookupRoom_updateAt, hlook1, insertKV]
  have hcl : cleanup stA (addViewer (createRoom rooms0 R txB) R (newUuid c) txV)
      = (removeHost (addViewer (createRoom rooms0 R txB) R (newUuid c) txV) R,
         [(txV, .hostLeft)]) := by
    simp [cleanup, hrc, hih, hlook2]
  rw [hrooms1, hcnt1, h2rooms, hcl]
  exact ⟨rfl, lookupRoom_removeHost_self _ R, rfl⟩

theorem host_teardown_keyed_by_room_code_witness :
    (⟨some "A", true, none⟩ : SessionState).role = .hostOf "A" ∧
    (cleanup ⟨some "A", true, none⟩
        [("A", ⟨some 1, [(newUuid 0, 2)]⟩)]).2 = [(2, .hostLeft)] ∧
    lookupRoom (cleanup ⟨some "A", true, none⟩
        [("A", ⟨some 1, [(newUuid 0, 2)]⟩)]).1 "A" = none :=
  ⟨by decide,
    (host_teardown_keyed_by_room_code ⟨some "A", true, none⟩ [] "A" 0 1 2
      ⟨⟨some "A", true, none⟩, [("A", ⟨some 1, []⟩)], 0, []⟩
      ⟨⟨some "A", false, some (newUuid 0)⟩,
        [("A", ⟨some 1, [(newUuid 0, 2)]⟩)], 1,
        [(1, .viewerJoined (newUuid 0))]⟩
      (by decide) (by decide) (by decide)).1,
    (host_teardown_keyed_by_room_code ⟨some "A", true, none⟩ [] "A" 0 1 2
      ⟨⟨some "A", true, none⟩, [("A", ⟨some 1, []⟩)], 0, []⟩
      ⟨⟨some "A", false, some (newUuid 0)⟩,
        [("A", ⟨some 1, [(newUuid 0, 2)]⟩)], 1,
        [(1, .viewerJoined (newUuid 0))]⟩
      (by decide) (by decide) (by decide)).2.1⟩

/-- C4: an `Offer{viewerId: V, sdp: S}` sent by the host of room `R` leaves
the session, registry and counter unchanged; it is enqueued verbatim (same
viewer id, same sdp) to the session registered as viewer `V` in `R` and to
no other session; if viewer `V` is not registered in `R`, or room `R` is
absent, nothing is sent (no error to the sender). -/
theorem offer_routed_verbatim_to_target_viewer
    (tx : Tx) (st : SessionState) (rooms : Rooms) (c : Nat) (R V S : String)
    (h : st.role = .hostOf R) :
    (handleSignal tx st rooms c (.offer V S)).st = st ∧
    (handleSignal tx st rooms c (.offer V S)).rooms = rooms ∧
    (handleSignal tx st rooms c (.offer V S)).counter = c ∧
    (∀ r q, lookupRoom rooms R = some r →
        r.viewers.find? (fun p => p.1 = V) = some q →
        (handleSignal tx st rooms c (.offer V S)).sends = [(q.2, .offer V S)]) ∧
    (∀ r, lookupRoom rooms R = some r →
        r.viewers.find? (fun p => p.1 = V) = none →
        (handleSignal tx st rooms c (.offer V S)).sends = []) ∧
    (lookupRoom rooms R = none →
        (handleSignal tx st rooms c (.offer V S)).sends = []) := by
  obtain ⟨hrc, _⟩ := role_eq_hostOf h
  refine ⟨rfl, rfl, rfl, ?_, ?_, ?_⟩
  · intro r q hr hq
    simp [handleSignal, hrc, hr, hq]
  · intro r hr hq
    simp [handleSignal, hrc, hr, hq]
  · intro hr
    simp [handleSignal, hrc, hr]

theorem offer_routed_verbatim_to_target_viewer_witness :
    (⟨some "A", true, none⟩ : SessionState).role = .hostOf "A" ∧
    (handleSignal 0 ⟨some "A", true, none⟩ [("A", ⟨some 0, [("v", 1)]⟩)] 0
        (.offer "v" "s")).sends = [(1, .offer "v" "s")] :=
  ⟨by decide,
    (offer_routed_verbatim_to_target_viewer 0 ⟨some "A", true, none⟩
        [("A", ⟨some 0, [("v", 1)]⟩)] 0 "A" "v" "s"
        (by decide)).2.2.2.1 ⟨some 0, [("v", 1)]⟩ ("v", 1) (by decide) (by decide)⟩

/-- C5: an `Answer{sdp}` sent by a session with role `Viewer(R, vid)` —
for every client-supplied `viewerId` field `cvid` — leaves the session,
registry and counter unchanged, and is enqueued to the room's host (when
present) tagged with the session's own server-assigned `vid`, never the
client-supplied one, with the sdp unchanged; with no host or no room,
nothing is sent. -/
theorem answer_tagged_with_server_assigned_viewer_id
    (tx : Tx) (st : SessionState) (rooms : Rooms) (c : Nat) (R vid : String)
    (cvid : Option String) (S : String) (h : st.role = .viewerOf R vid) :
    (handleSignal tx st rooms c (.answer cvid S)).st = st ∧
    (handleSignal tx st rooms c (.answer cvid S)).rooms = rooms ∧
    (handleSignal tx st rooms c (.answer cvid S)).counter = c ∧
    (∀ r htx, lookupRoom rooms R = some r → r.host_tx = some htx →
        (handleSignal tx st rooms c (.answer cvid S)).sends
          = [(htx, .answer (some vid) S)]) ∧
    (∀ r, lookupRoom rooms R = some r → r.host_tx = none →
        (handleSignal tx st rooms c (.answer cvid S)).sends = []) ∧
    (lookupRoom rooms R = none →
        (handleSignal tx st rooms c (.answer cvid S)).sends = []) := by
  obtain ⟨hrc, _, hvid⟩ := role_eq_viewerOf h
  refine ⟨rfl, rfl, rfl, ?_, ?_, ?_⟩
  · intro r htx hr hh
    simp [handleSignal, hrc, hvid, hr, hh]
  · intro r hr hh
    simp [handleSignal, hrc, hvid, hr, hh]
  · intro hr
    simp [handleSignal, hrc, hvid, hr]

theorem answer_tagged_with_server_assigned_viewer_id_witness :
    (⟨some "A", false, some "v"⟩ : SessionState).role = .viewerOf "A" "v" ∧
    (handleSignal 1 ⟨some "A", false, some "v"⟩ [("A", ⟨some 0, [("v", 1)]⟩)] 0
        (.answer (some "forged") "s")).sends = [(0, .answer (some "v") "s")] :=
  ⟨by decide,
    (answer_tagged_with_server_assigned_viewer_id 1 ⟨some "A", false, some "v"⟩
        [("A", ⟨some 0, [("v", 1)]⟩)] 0 "A" "v" (some "forged") "s"
        (by decide)).2.2.2.1 ⟨some 0, [("v", 1)]⟩ 0 (by decide) (by decide)⟩

/-- C6: an `IceCandidate` is routed by the sender's role.  From a host:
a target `viewerId` is required (with `none` nothing is sent) and the
candidate is forwarded unchanged to that viewer's session in the host's
room.  From a viewer: it is forwarded to the room's host tagged with the
sender's server-assigned viewer id, whatever client-supplied id was in the
message.  Session, registry and counter are never changed. -/
theorem ice_candidate_routed_by_role :
    (∀ tx st rooms c R V cand r q, (st : SessionState).role = .hostOf R →
        lookupRoom rooms R = some r →
        r.viewers.find? (fun p => p.1 = V) = some q →
        (handleSignal tx st rooms c (.iceCandidate (some V) cand)).sends
          = [(q.2, .iceCandidate (some V) cand)]) ∧
    (∀ tx st rooms c R cand, (st : SessionState).role = .hostOf R →
        (handleSignal tx st rooms c (.iceCandidate none cand)).sends = []) ∧
    (∀ tx st rooms c R vid cvid cand r htx,
        (st : SessionState).role = .viewerOf R vid →
        lookupRoom rooms R = some r → r.host_tx = some htx →
        (handleSignal tx st rooms c (.iceCandidate cvid cand)).sends
          = [(htx, .iceCandidate (some vid) cand)]) ∧
    (∀ tx st rooms c cvid cand,
        (handleSignal tx st rooms c (.iceCandidate cvid cand)).st = st ∧
        (handleSignal tx st rooms c (.iceCandidate cvid cand)).rooms = rooms ∧
        (handleSignal tx st rooms c (.iceCandidate cvid cand)).counter = c) := by
  refine ⟨?_, ?_, ?_, ?_⟩
  · intro tx st rooms c R V cand r q h hr hq
    obtain ⟨hrc, hih⟩ := role_eq_hostOf h
    simp [handleSignal, hrc, hih, hr, hq]
  · intro tx st rooms c R cand h
    obtain ⟨hrc, hih⟩ := role_eq_hostOf h
    cases hr : lookupRoom rooms R <;> simp [handleSignal, hrc, hih, hr]
  · intro tx st rooms c R vid cvid cand r htx h hr hh
    obtain ⟨hrc, hih, hvid⟩ := role_eq_viewerOf h
    simp [handleSignal, hrc, hih, hvid, hr, hh]
  · intro tx st rooms c cvid cand
    exact ⟨rfl, rfl, rfl⟩

theorem ice_candidate_routed_by_role_witness :
    (⟨some "A", false, some "v"⟩ : SessionState).role = .viewerOf "A" "v" ∧
    (handleSignal 1 ⟨some "A", false, some "v"⟩ [("A", ⟨some 0, [("v", 1)]⟩)] 0
        (.iceCandidate (some "forged") "cand")).sends
      = [(0, .iceCandidate (some "v") "cand")] :=
  ⟨by decide,
    ice_candidate_routed_by_role.2.2.1 1 ⟨some "A", false, some "v"⟩
      [("A", ⟨some 0, [("v", 1)]⟩)] 0 "A" "v" (some "forged") "cand"
      ⟨some 0, [("v", 1)]⟩ 0 (by decide) (by decide) (by decide)⟩

/-- C1 (counterexample): a second `Host{"A"}` from a session already
registered as host of room "A" (whose room holds one viewer) is *not*
dropped: it re-creates the room entry, wiping the viewer from the Registry
(state reached by: host "A" from tx 0, then viewer join from tx 1). -/
theorem second_host_message_mutates_registry :
    (handleSignal 0 ⟨some "A", true, none⟩
        [("A", ⟨some 0, [(newUuid 0, 1)]⟩)] 1 (.host "A")).rooms
      ≠ [("A", ⟨some 0, [(newUuid 0, 1)]⟩)] := by
  decide

/-- C1 (amended): the router performs no role check on client envelopes.
A `Host` message is always processed as room (re)creation, updating the
session's role fields; a `Viewer` message is always processed as a join
when the room exists, whatever the current role; an `Offer` from a non-host
session whose room exists is forwarded to the target viewer.  None of these
is dropped; no error is sent. -/
theorem no_role_check_on_client_envelopes :
    (∀ tx st rooms c room, (handleSignal tx st rooms c (.host room) : StepResult)
        = ⟨⟨some room, true, st.viewer_id⟩, createRoom rooms room tx, c, []⟩) ∧
    (∀ tx st rooms c room r htx,
        lookupRoom rooms room = some r → r.host_tx = some htx →
        (handleSignal tx st rooms c (.viewer room) : StepResult)
          = ⟨⟨some room, st.is_host, some (newUuid c)⟩,
             addViewer rooms room (newUuid c) tx, c + 1,
             [(htx, .viewerJoined (newUuid c))]⟩) ∧
    (∀ tx st rooms c R V S r q, (st : SessionState).room_code = some R →
        st.is_host = false →
        lookupRoom rooms R = some r →
        r.viewers.find? (fun p => p.1 = V) = some q →
        (handleSignal tx st rooms c (.offer V S)).sends = [(q.2, .offer V S)]) := by
  refine ⟨?_, ?_, ?_⟩
  · intro tx st rooms c room
    rfl
  · intro tx st rooms c room r htx hr hh
    simp [handleSignal, hr, hh]
  · intro tx st rooms c R V S r q hrc _ hr hq
    simp [handleSignal, hrc, hr, hq]

theorem no_role_check_on_client_envelopes_witness :
    lookupRoom [("A", ⟨some 0, []⟩)] "A" = some ⟨some 0, []⟩ ∧
    (handleSignal 1 ⟨some "B", true, none⟩ [("A", ⟨some 0, []⟩)] 0
        (.viewer "A") : StepResult)
      = ⟨⟨some "A", true, some (newUuid 0)⟩,
         addViewer [("A", ⟨some 0, []⟩)] "A" (newUuid 0) 1, 1,
         [(0, .viewerJoined (newUuid 0))]⟩ :=
  ⟨by decide,
    no_role_check_on_client_envelopes.2.1 1 ⟨some "B", true, none⟩
      [("A", ⟨some 0, []⟩)] 0 "A" ⟨some 0, []⟩ 0 (by decide) (by decide)⟩

/-- C9 (counterexample): calling `start(9000)` while the server is already
running with its listener bound to port 8000 returns `Ok(9000)` — the
argument — not the port 8000 the running listener is bound to. -/
theorem start_returns_argument_not_listening_port :
    (start_signaling_server (fun _ => true) 9000 ⟨true, [8000]⟩).1
        = Except.ok 9000 ∧
    (start_signaling_server (fun _ => true) 9000 ⟨true, [8000]⟩).1
        ≠ Except.ok 8000 := by
  constructor
  · rfl
  · intro h
    simp [start_signaling_server] at h

/-- C9 (amended): calling `start(port)` while the server is already running
returns the *argument* port without error and without creating a second
listener (the server state, including the existing listener list, is
unchanged) — for every argument, including one different from the port the
running listener is bound to. -/
theorem start_when_running_returns_argument_port
    (bindOk : Nat → Bool) (port : Nat) (s : ServerCtl)
    (h : s.running = true) :
    start_signaling_server bindOk port s = (Except.ok port, s) := by
  simp [start_signaling_server, h]

theorem start_when_running_returns_argument_port_witness :
    (⟨true, [8000]⟩ : ServerCtl).running = true ∧
    start_signaling_server (fun _ => false) 9000 ⟨true, [8000]⟩
      = (Except.ok 9000, ⟨true, [8000]⟩) :=
  ⟨rfl, start_when_running_returns_argument_port (fun _ => false) 9000
    ⟨true, [8000]⟩ rfl⟩

end Signaling
